import Mathlib

/-!
Verification development for the dev-server orchestrator backend
(`src/backend/index.js`, with the readiness probe taken from the later
variant `src/unnamed/part_001`, the only variant that contains it).

The orchestrator keeps an in-memory `Map` called `activeSessions` from
session ids to session records, and exposes three operations over HTTP:
create (POST), list (GET) and delete (DELETE), plus a helper
`findAvailablePort` that probes OS port bindings.

Embedding choices, in order of appearance:
* a JS `Map` is an insertion-ordered association list with unique keys;
  `Map.set` updates in place when the key exists and appends otherwise,
  `Map.delete` removes the unique binding, `Map.get` returns the first
  (hence only) binding;
* the external world (OS sockets, git, Docker) is modelled by explicit
  parameters and side conditions on the transition relation: a port is
  OS-bound exactly when some session's container has been started
  (`containerId` set) — sessions still cloning/starting bind nothing,
  because `findAvailablePort` closes its probe socket before resolving
  (`server.close(() => resolve(port))` in the source);
* the `await` suspension points of the create handler split it into
  separate atomic steps (begin/insert, clone outcome, start outcome), so
  that concurrently arriving requests interleave as they do in Node's
  event loop; delete and the validation rejection have no visible
  intermediate states and are single steps;
* fallible external calls (clone, container create/start, container stop,
  `fs.rmdir`) have their outcome supplied as a step parameter; tolerated
  failures only add log entries, mirroring the `catch` blocks that only
  call `console.error`;
* external side effects performed by the handlers (port probe, clone,
  container create/start/stop, recursive directory removal) are recorded
  in an `effects` trace so that claims of the form "performs no container
  stop / no filesystem removal" are statable.
-/

/-- Lifecycle states stored in the `status` field of a session record:
`'cloning'`, `'starting'`, `'running'` in `src/backend/index.js`. -/
inductive Status where
  | cloning
  | starting
  | running
deriving DecidableEq, Repr

/-- One entry of the `activeSessions` map, as built by the create handler:
`{ sessionId, repoUrl, port, status, containerId, sessionDir }`. -/
structure Session where
  sessionId : String
  repoUrl : String
  port : Nat
  status : Status
  containerId : Option String
  sessionDir : String
deriving DecidableEq, Repr

/-- The `activeSessions` JS `Map`, as an insertion-ordered association list. -/
abbrev Registry : Type := List (String × Session)

/-- JS `Map.get`: the value of the first (unique) binding of the key, if any. -/
def mapGet (m : Registry) (k : String) : Option Session :=
  (m.find? (fun kv => kv.1 == k)).map (fun kv => kv.2)

/-- JS `Map.set`: update in place when the key is present, append otherwise. -/
def mapSet (m : Registry) (k : String) (v : Session) : Registry :=
  if m.any (fun kv => kv.1 == k) then
    m.map (fun kv => if kv.1 == k then (k, v) else kv)
  else
    m ++ [(k, v)]

/-- In-place mutation of one session's fields
(`activeSessions.get(sessionId).status = ...` in the source). -/
def mapUpdate (m : Registry) (k : String) (f : Session → Session) : Registry :=
  m.map (fun kv => if kv.1 == k then (kv.1, f kv.2) else kv)

/-- JS `Map.delete`: remove the binding of the key. -/
def mapDelete (m : Registry) (k : String) : Registry :=
  m.filter (fun kv => kv.1 != k)

/-- Keys of the map in insertion order (`Array.from(activeSessions.keys())`). -/
def keysOf (m : Registry) : List String :=
  m.map (fun kv => kv.1)

/-- Projection returned by the GET list handler for each session:
`{ sessionId, repoUrl, port, status, containerId }`. -/
structure SessionSummary where
  sessionId : String
  repoUrl : String
  port : Nat
  status : Status
  containerId : Option String
deriving DecidableEq, Repr

/-- Log lines emitted through `console.log` / `console.error`; only their
occurrence matters, not their text. -/
inductive LogEntry where
  | stopContainerError (sid : String)
  | rmdirDeleteError (sid : String)
  | rmdirCleanupError (sid : String)
  | probeLine (sid : String) (k : Nat)
  | probeWaitLine (sid : String) (ms : Nat)
  | probeRespondingLine (sid : String)
  | probeGaveUpLine (sid : String)
  | probeExitedLine (sid : String)
deriving DecidableEq, Repr

/-- External world actions performed by the handlers, recorded in order. -/
inductive ExtOp where
  | portProbe (port : Nat)
  | gitClone (url : String) (dir : String)
  | dockerCreateStart (sid : String)
  | dockerStop (cid : String)
  | rmdirRec (dir : String)
deriving DecidableEq, Repr

/-- Whole-server state: the `activeSessions` map plus the observable log
and external-effect traces. -/
structure ServerState where
  activeSessions : Registry
  logs : List LogEntry
  effects : List ExtOp
deriving DecidableEq, Repr

/-- State at process start: the map is empty. -/
def initialState : ServerState :=
  { activeSessions := [], logs := [], effects := [] }

/-- Constant `REPOS_DIR`, the base directory for session workspaces. -/
def REPOS_DIR : String := "repos"

/-- Directory `path.join(REPOS_DIR, sessionId)` of one session. -/
def sessionDirOf (sid : String) : String := REPOS_DIR ++ "/" ++ sid

/-- The list handler: `Array.from(activeSessions.values()).map(...)`. -/
def listSessions (s : ServerState) : List SessionSummary :=
  s.activeSessions.map (fun kv =>
    { sessionId := kv.2.sessionId, repoUrl := kv.2.repoUrl, port := kv.2.port,
      status := kv.2.status, containerId := kv.2.containerId })

/-- Outcome of the promise created by `findAvailablePort` under Node's
actual `net.Server.listen` semantics: it either resolves with the bound
port, or — when the bind fails — the server emits an `error` event that
nothing listens for, so the error is unhandled and the promise never
settles (it neither resolves nor rejects). -/
inductive ListenOutcome where
  | resolved (port : Nat)
  | unhandledError (e : String)
deriving DecidableEq, Repr

/-- OS socket environment for one allocator run: `bindResult p` is the
outcome the OS gives to binding port `p` (`none` for success, `some e`
for a bind error such as EADDRINUSE), and `ephemeralPort` is the port the
OS would assign to a `listen(0)` request, were one ever made. -/
structure NetBindEnv where
  bindResult : Nat → Option String
  ephemeralPort : Nat

/-- Helper `findAvailablePort(startPort)`, embedded with Node's actual
`listen` semantics.  The callback passed to `server.listen(startPort, cb)`
is a `listening`-event listener invoked with NO arguments, so its `err`
parameter is always `undefined` and the `if (err)` branch — the intended
fallback to `server.listen(0, ...)` — is dead code.  When the bind
succeeds, the callback runs with `err` undefined and the else branch
closes the probe server and resolves the bound port; when the bind fails,
the server emits `error`, no listener is registered for it, the callback
never runs, and the promise never settles. -/
def findAvailablePort (env : NetBindEnv) (startPort : Nat) : ListenOutcome :=
  match env.bindResult startPort with
  | none => ListenOutcome.resolved startPort
  | some e => ListenOutcome.unhandledError e

/-- Whether port `p` is bound at OS level in registry `m`: exactly the
ports of sessions whose container has been started.  Sessions still
cloning or starting bind nothing (the allocator's probe socket is closed
before the port is returned). -/
def osBoundB (m : Registry) (p : Nat) : Bool :=
  m.any (fun kv => kv.2.containerId.isSome && (kv.2.port == p))

/-- First phase of the create handler, up to and including
`activeSessions.set(sessionId, {...status: 'cloning'...})`: the id and
port have been chosen and the entry is inserted. -/
def beginCreateFn (s : ServerState) (repoUrl sid : String) (port : Nat) : ServerState :=
  { s with
    activeSessions := mapSet s.activeSessions sid
      { sessionId := sid, repoUrl := repoUrl, port := port,
        status := Status.cloning, containerId := none,
        sessionDir := sessionDirOf sid },
    effects := s.effects ++ [ExtOp.portProbe port] }

/-- Step after `git.clone` returned: `activeSessions.get(sessionId).status = 'starting'`. -/
def cloneOkFn (s : ServerState) (sid : String) : ServerState :=
  { s with
    activeSessions := mapUpdate s.activeSessions sid
      (fun sess => { sess with status := Status.starting }),
    effects := s.effects ++
      [ExtOp.gitClone (match mapGet s.activeSessions sid with
        | some sess => sess.repoUrl
        | none => "") (sessionDirOf sid)] }

/-- Boolean test used by the catch-block cleanup:
`activeSessions.get(id)?.repoUrl === req.body.repoUrl &&
 activeSessions.get(id)?.status !== 'running'`. -/
def cleanupMatch (m : Registry) (repoUrl : String) (id : String) : Bool :=
  match mapGet m id with
  | some sess => (sess.repoUrl == repoUrl) && !(sess.status == Status.running)
  | none => false

/-- The catch block of the create handler: when the request carried a
non-empty `repoUrl`, find the FIRST session id (in insertion order) whose
`repoUrl` matches the request and whose status is not `'running'`, delete
it from the map and remove its directory (removal failures only logged). -/
def errorCleanupFn (s : ServerState) (repoUrl : String) (rmFails : Bool) : ServerState :=
  if repoUrl = "" then s
  else
    match List.find? (cleanupMatch s.activeSessions repoUrl) (keysOf s.activeSessions) with
    | some sid =>
      { s with
        activeSessions := mapDelete s.activeSessions sid,
        effects := s.effects ++ [ExtOp.rmdirRec (sessionDirOf sid)],
        logs := if rmFails then s.logs ++ [LogEntry.rmdirCleanupError sid] else s.logs }
    | none => s

/-- Step after `git.clone` threw: the catch block runs with the request's `repoUrl`
(equal to the failing session's, which the request inserted). -/
def cloneFailFn (s : ServerState) (sid repoUrl : String) (rmFails : Bool) : ServerState :=
  errorCleanupFn
    { s with effects := s.effects ++ [ExtOp.gitClone repoUrl (sessionDirOf sid)] }
    repoUrl rmFails

/-- Step after `docker.createContainer` and `container.start()` both returned: the
session gets its `containerId` and status `'running'` (the success
response is emitted by the same step of the transition relation). -/
def startOkFn (s : ServerState) (sid cid : String) : ServerState :=
  { s with
    activeSessions := mapUpdate s.activeSessions sid
      (fun sess => { sess with containerId := some cid, status := Status.running }),
    effects := s.effects ++ [ExtOp.dockerCreateStart sid] }

/-- Step after `docker.createContainer` or `container.start()` threw: the catch
block runs with the request's `repoUrl`. -/
def startFailFn (s : ServerState) (sid repoUrl : String) (rmFails : Bool) : ServerState :=
  errorCleanupFn
    { s with effects := s.effects ++ [ExtOp.dockerCreateStart sid] }
    repoUrl rmFails

/-- HTTP responses (and internal markers) emitted by handler steps. -/
inductive Event where
  | validationError (repoUrl : String)
  | createStarted (sid repoUrl : String) (port : Nat)
  | createSuccess (sid repoUrl : String) (port : Nat)
  | createError (repoUrl : String)
  | deleteSuccess (sid : String)
  | deleteNotFound (sid : String)
  | probed (sid : String)
deriving DecidableEq, Repr

/-- The DELETE handler, atomic end to end: look the session up (absent id
answers 404 and touches nothing); otherwise stop the container when a
`containerId` is present (errors logged), remove the session directory
(errors logged), delete the map entry, and answer success. -/
def handleDelete (s : ServerState) (sid : String) (stopFails rmFails : Bool) :
    ServerState × Event :=
  match mapGet s.activeSessions sid with
  | none => (s, Event.deleteNotFound sid)
  | some sess =>
    let s1 : ServerState :=
      match sess.containerId with
      | some cid =>
        { s with effects := s.effects ++ [ExtOp.dockerStop cid],
                 logs := if stopFails then s.logs ++ [LogEntry.stopContainerError sid]
                         else s.logs }
      | none => s
    let s2 : ServerState :=
      { s1 with effects := s1.effects ++ [ExtOp.rmdirRec sess.sessionDir],
                logs := if rmFails then s1.logs ++ [LogEntry.rmdirDeleteError sid]
                        else s1.logs }
    ({ s2 with activeSessions := mapDelete s2.activeSessions sid },
     Event.deleteSuccess sid)

/-- Events of the detached readiness probe in `src/unnamed/part_001`: an
HTTP attempt against the bound port, the scheduled wait between attempts,
and the three terminal log lines. -/
inductive ProbeEvent where
  | attempt (k : Nat)
  | wait (ms : Nat)
  | logSuccess
  | logGiveUp
  | logExited
deriving DecidableEq, Repr

/-- Retry budget `const maxAttempts = 10` of the probe. -/
def maxAttempts : Nat := 10

/-- The `setTimeout(check, 1000)` spacing between attempts. -/
def probeDelayMs : Nat := 1000

/-- The `setTimeout(..., 2000)` delay before the probe first runs. -/
def probeInitialDelayMs : Nat := 2000

/-- The `check`/`retry` mutual loop of the probe.  `resp k` is the HTTP
status of the `k`-th `http.get` (`none` for a connection error).  The JS
counter `attempts` is mirrored here together with `remaining`, kept equal
to `maxAttempts - 1 - attempts`, so that the JS guard
`attempts + 1 < maxAttempts` becomes `remaining > 0` and the recursion is
structural on `remaining`.  A 200 answer logs success and stops; an
exhausted budget logs the give-up line and stops. -/
def checkFrom (resp : Nat → Option Nat) : Nat → Nat → List ProbeEvent
  | attempts, remaining =>
    if resp attempts = some 200 then [ProbeEvent.attempt attempts, ProbeEvent.logSuccess]
    else
      match remaining with
      | 0 => [ProbeEvent.attempt attempts, ProbeEvent.logGiveUp]
      | r + 1 =>
        ProbeEvent.attempt attempts :: ProbeEvent.wait probeDelayMs ::
          checkFrom resp (attempts + 1) r

/-- Environment seen by one run of the probe: what `container.inspect()`
reports, and the HTTP answers of the polled port. -/
structure ProbeEnv where
  inspectRunning : Bool
  resp : Nat → Option Nat

/-- One full run of the probe body: if `inspect` says the container is
not running it fetches and logs the log tail; otherwise it polls the
port, starting at `attempts = 0` with the full retry budget. -/
def runProbe (env : ProbeEnv) : List ProbeEvent :=
  if env.inspectRunning then checkFrom env.resp 0 (maxAttempts - 1)
  else [ProbeEvent.logExited]

/-- Rendering of one probe event into the server's log/effect trace. -/
def probeLogOf (sid : String) : ProbeEvent → LogEntry
  | ProbeEvent.attempt k => LogEntry.probeLine sid k
  | ProbeEvent.wait ms => LogEntry.probeWaitLine sid ms
  | ProbeEvent.logSuccess => LogEntry.probeRespondingLine sid
  | ProbeEvent.logGiveUp => LogEntry.probeGaveUpLine sid
  | ProbeEvent.logExited => LogEntry.probeExitedLine sid

/-- Effect of one detached probe run on the server state: it only calls
`console.log` / `console.error` — the registry and the effect trace are
untouched and no response object is in scope inside it. -/
def probeFn (s : ServerState) (sid : String) (env : ProbeEnv) : ServerState :=
  { s with logs := s.logs ++ (runProbe env).map (probeLogOf sid) }

/-- Number of HTTP attempts in a probe trace. -/
def attemptCount (tr : List ProbeEvent) : Nat :=
  (tr.filter (fun e => match e with | ProbeEvent.attempt _ => true | _ => false)).length

/-- Small-step transition relation of the orchestrator.  Each constructor
is one atomic stretch of handler code between `await` suspension points;
side conditions state what the external world must report for that step
to fire (fresh uuid, OS port availability, session still present with the
status the handler left it in).  The `createBegin` side condition
over-approximates the allocator: every port the real `findAvailablePort`
can resolve (the preferred port, when its bind succeeds — see the
faithful embedding above, whose fallback branch is dead code) is OS-free
at probe time, and the over-approximation additionally admits the
fallback ports the source intended, so universally quantified theorems
cover strictly more behaviour than the program; every counterexample
trace below allocates only an OS-free preferred port 8080, staying inside
the faithful fragment. -/
inductive Step : ServerState → Event → ServerState → Prop where
  | createReject (s : ServerState) :
      Step s (Event.validationError "") s
  | createBegin (s : ServerState) (repoUrl sid : String) (port : Nat)
      (hurl : repoUrl ≠ "")
      (hfresh : mapGet s.activeSessions sid = none)
      (hfree : osBoundB s.activeSessions port = false) :
      Step s (Event.createStarted sid repoUrl port) (beginCreateFn s repoUrl sid port)
  | cloneOk (s : ServerState) (sid : String) (sess : Session)
      (hget : mapGet s.activeSessions sid = some sess)
      (hst : sess.status = Status.cloning) :
      Step s (Event.probed sid) (cloneOkFn s sid)
  | cloneFail (s : ServerState) (sid : String) (sess : Session) (rmFails : Bool)
      (hget : mapGet s.activeSessions sid = some sess)
      (hst : sess.status = Status.cloning) :
      Step s (Event.createError sess.repoUrl) (cloneFailFn s sid sess.repoUrl rmFails)
  | startOk (s : ServerState) (sid : String) (sess : Session) (cid : String)
      (hget : mapGet s.activeSessions sid = some sess)
      (hst : sess.status = Status.starting)
      (hbind : osBoundB s.activeSessions sess.port = false) :
      Step s (Event.createSuccess sid sess.repoUrl sess.port) (startOkFn s sid cid)
  | startFail (s : ServerState) (sid : String) (sess : Session) (rmFails : Bool)
      (hget : mapGet s.activeSessions sid = some sess)
      (hst : sess.status = Status.starting) :
      Step s (Event.createError sess.repoUrl) (startFailFn s sid sess.repoUrl rmFails)
  | deleteSess (s : ServerState) (sid : String) (stopFails rmFails : Bool)
      (sess : Session)
      (hget : mapGet s.activeSessions sid = some sess) :
      Step s (Event.deleteSuccess sid) (handleDelete s sid stopFails rmFails).1
  | deleteMiss (s : ServerState) (sid : String) (stopFails rmFails : Bool)
      (hget : mapGet s.activeSessions sid = none) :
      Step s (Event.deleteNotFound sid) s
  | probeTick (s : ServerState) (sid : String) (env : ProbeEnv) :
      Step s (Event.probed sid) (probeFn s sid env)

/-- States reachable from process start by interleaved handler steps. -/
inductive Reachable : ServerState → Prop where
  | init : Reachable initialState
  | next {s : ServerState} {e : Event} {s' : ServerState} :
      Reachable s → Step s e s' → Reachable s'

theorem mapGet_eq_none {m : Registry} {k : String} :
    mapGet m k = none ↔ ∀ kv ∈ m, kv.1 ≠ k := by
  simp [mapGet, List.find?_eq_none]

theorem mapGet_some_mem {m : Registry} {k : String} {v : Session}
    (h : mapGet m k = some v) : (k, v) ∈ m := by
  unfold mapGet at h
  cases hfind : m.find? (fun kv => kv.1 == k) with
  | none => rw [hfind] at h; simp at h
  | some kv =>
    rw [hfind] at h
    simp only [Option.map_some'] at h
    have hmem := List.mem_of_find?_eq_some hfind
    have hp := List.find?_some hfind
    simp only [beq_iff_eq] at hp
    injection h with h2
    have hkv : kv = (k, v) := Prod.ext hp h2
    rw [← hkv]
    exact hmem

theorem mapGet_of_mem_nodup {m : Registry} {kv : String × Session}
    (hnd : (keysOf m).Nodup) (hmem : kv ∈ m) : mapGet m kv.1 = some kv.2 := by
  induction m with
  | nil => simp at hmem
  | cons hd tl ih =>
    simp only [keysOf, List.map_cons, List.nodup_cons] at hnd
    rcases List.mem_cons.mp hmem with heq | htl
    · subst heq
      simp [mapGet, List.find?_cons]
    · have hne : (hd.1 == kv.1) = false := by
        rw [beq_eq_false_iff_ne]
        intro he
        exact hnd.1 (he ▸ List.mem_map_of_mem (fun x => x.1) htl)
      have ihres := ih hnd.2 htl
      unfold mapGet at ihres ⊢
      rw [List.find?_cons, hne]
      exact ihres

theorem mapSet_fresh {m : Registry} {k : String} {v : Session}
    (h : mapGet m k = none) : mapSet m k v = m ++ [(k, v)] := by
  have hany : m.any (fun kv => kv.1 == k) = false := by
    rw [List.any_eq_false]
    intro kv hkv
    simp only [beq_iff_eq]
    exact mapGet_eq_none.mp h kv hkv
  simp [mapSet, hany]

theorem mem_mapDelete {m : Registry} {k : String} {kv : String × Session} :
    kv ∈ mapDelete m k ↔ kv ∈ m ∧ kv.1 ≠ k := by
  simp [mapDelete, List.mem_filter]

theorem mapGet_mapDelete_self (m : Registry) (k : String) :
    mapGet (mapDelete m k) k = none := by
  rw [mapGet_eq_none]
  intro kv hkv
  exact (mem_mapDelete.mp hkv).2

theorem mapDelete_sublist (m : Registry) (k : String) :
    List.Sublist (mapDelete m k) m :=
  List.filter_sublist m

theorem keysOf_mapUpdate (m : Registry) (k : String) (f : Session → Session) :
    keysOf (mapUpdate m k f) = keysOf m := by
  unfold keysOf mapUpdate
  rw [List.map_map]
  apply List.map_congr_left
  intro kv _
  by_cases hk : kv.1 = k <;> simp [hk]

theorem mapUpdate_id_of_absent {m : Registry} {k : String} (f : Session → Session)
    (h : ∀ kv ∈ m, kv.1 ≠ k) : mapUpdate m k f = m := by
  induction m with
  | nil => rfl
  | cons hd tl ih =>
    have hhd : hd.1 ≠ k := h hd (List.mem_cons_self hd tl)
    have htl := ih (fun kv hkv => h kv (List.mem_cons_of_mem hd hkv))
    simp only [mapUpdate, List.map_cons] at htl ⊢
    simp only [beq_iff_eq] at htl ⊢
    rw [if_neg hhd, htl]

theorem osBound_of_mem {m : Registry} {kv : String × Session}
    (hmem : kv ∈ m) (hc : kv.2.containerId.isSome = true) :
    osBoundB m kv.2.port = true := by
  rw [osBoundB, List.any_eq_true]
  exact ⟨kv, hmem, by simp [hc]⟩

/-- Port-uniqueness relation between two registry entries: two sessions
that are both `running` never hold the same port. -/
def runningPortR (a b : String × Session) : Prop :=
  a.2.status = Status.running → b.2.status = Status.running → a.2.port ≠ b.2.port

/-- Inductive invariant of the registry maintained by every handler step:
keys are unique; an entry's `sessionId` field equals its key; no entry
has an empty `repoUrl`; an entry is `running` exactly when its container
has been started; and running sessions hold pairwise distinct ports. -/
structure RegInv (m : Registry) : Prop where
  keysNodup : (keysOf m).Nodup
  idMatch : ∀ kv ∈ m, kv.2.sessionId = kv.1
  urlNonempty : ∀ kv ∈ m, kv.2.repoUrl ≠ ""
  contRun : ∀ kv ∈ m, (kv.2.status = Status.running ↔ kv.2.containerId.isSome = true)
  portsOk : List.Pairwise runningPortR m

theorem regInv_sublist {m m' : Registry} (hs : List.Sublist m' m)
    (h : RegInv m) : RegInv m' := by
  constructor
  · have hsk := hs.map (fun kv : String × Session => kv.1)
    have h2 := h.keysNodup
    unfold keysOf at h2 ⊢
    exact h2.sublist hsk
  · exact fun kv hkv => h.idMatch kv (hs.subset hkv)
  · exact fun kv hkv => h.urlNonempty kv (hs.subset hkv)
  · exact fun kv hkv => h.contRun kv (hs.subset hkv)
  · exact h.portsOk.sublist hs

theorem regInv_errorCleanup {s : ServerState} (u : String) (rm : Bool)
    (h : RegInv s.activeSessions) : RegInv (errorCleanupFn s u rm).activeSessions := by
  unfold errorCleanupFn
  by_cases hu : u = ""
  · rw [if_pos hu]; exact h
  · rw [if_neg hu]
    cases List.find? (cleanupMatch s.activeSessions u) (keysOf s.activeSessions) with
    | none => exact h
    | some sid => exact regInv_sublist (mapDelete_sublist _ _) h

theorem regInv_beginCreate {s : ServerState} {repoUrl sid : String} {port : Nat}
    (h : RegInv s.activeSessions) (hurl : repoUrl ≠ "")
    (hfresh : mapGet s.activeSessions sid = none) :
    RegInv (beginCreateFn s repoUrl sid port).activeSessions := by
  have hkeys : ∀ kv ∈ s.activeSessions, kv.1 ≠ sid := mapGet_eq_none.mp hfresh
  have hreg : (beginCreateFn s repoUrl sid port).activeSessions
      = s.activeSessions ++
        [(sid, { sessionId := sid, repoUrl := repoUrl, port := port,
                 status := Status.cloning, containerId := none,
                 sessionDir := sessionDirOf sid })] := by
    simp [beginCreateFn, mapSet_fresh hfresh]
  rw [hreg]
  constructor
  · unfold keysOf
    rw [List.map_append]
    refine List.Nodup.append h.keysNodup (by simp) ?_
    intro a ha hb
    simp only [List.map_cons, List.map_nil, List.mem_singleton] at hb
    rcases List.mem_map.mp ha with ⟨kv, hkv, hfst⟩
    exact hkeys kv hkv (hfst.trans hb)
  · intro kv hkv
    rcases List.mem_append.mp hkv with hin | hnew
    · exact h.idMatch kv hin
    · simp only [List.mem_singleton] at hnew
      subst hnew; rfl
  · intro kv hkv
    rcases List.mem_append.mp hkv with hin | hnew
    · exact h.urlNonempty kv hin
    · simp only [List.mem_singleton] at hnew
      subst hnew; exact hurl
  · intro kv hkv
    rcases List.mem_append.mp hkv with hin | hnew
    · exact h.contRun kv hin
    · simp only [List.mem_singleton] at hnew
      subst hnew; simp
  · rw [List.pairwise_append]
    refine ⟨h.portsOk, by simp, ?_⟩
    intro a _ b hb
    simp only [List.mem_singleton] at hb
    subst hb
    intro _ hrun
    simp at hrun

theorem mem_mapUpdate_elim {m : Registry} {k : String} {f : Session → Session}
    {kv : String × Session} (hkv : kv ∈ mapUpdate m k f) :
    ∃ kv0 ∈ m, kv = kv0 ∨ (kv0.1 = k ∧ kv = (kv0.1, f kv0.2)) := by
  rcases List.mem_map.mp hkv with ⟨kv0, hkv0, heq⟩
  refine ⟨kv0, hkv0, ?_⟩
  by_cases hk : kv0.1 = k
  · right
    refine ⟨hk, ?_⟩
    rw [← heq]
    simp [hk]
  · left
    rw [← heq]
    simp [hk]

theorem regInv_cloneOk {s : ServerState} {sid : String} {sess : Session}
    (h : RegInv s.activeSessions)
    (hget : mapGet s.activeSessions sid = some sess)
    (hst : sess.status = Status.cloning) :
    RegInv (cloneOkFn s sid).activeSessions := by
  have hreg : (cloneOkFn s sid).activeSessions
      = mapUpdate s.activeSessions sid (fun x => { x with status := Status.starting }) := rfl
  rw [hreg]
  constructor
  · rw [keysOf_mapUpdate]; exact h.keysNodup
  · intro kv hkv
    rcases mem_mapUpdate_elim hkv with ⟨kv0, hkv0, hcase⟩
    rcases hcase with hsame | ⟨hk, hupd⟩
    · rw [hsame]; exact h.idMatch kv0 hkv0
    · rw [hupd]; exact h.idMatch kv0 hkv0
  · intro kv hkv
    rcases mem_mapUpdate_elim hkv with ⟨kv0, hkv0, hcase⟩
    rcases hcase with hsame | ⟨hk, hupd⟩
    · rw [hsame]; exact h.urlNonempty kv0 hkv0
    · rw [hupd]; exact h.urlNonempty kv0 hkv0
  · intro kv hkv
    rcases mem_mapUpdate_elim hkv with ⟨kv0, hkv0, hcase⟩
    rcases hcase with hsame | ⟨hk, hupd⟩
    · rw [hsame]; exact h.contRun kv0 hkv0
    · have hval : kv0.2 = sess := by
        have hh := mapGet_of_mem_nodup h.keysNodup hkv0
        rw [hk, hget] at hh
        injection hh with hv
        exact hv.symm
      rw [hupd]
      constructor
      · intro habs; simp at habs
      · intro habs
        have hrun := (h.contRun kv0 hkv0).mpr habs
        rw [hval, hst] at hrun
        simp at hrun
  · have hmapeq : (mapUpdate s.activeSessions sid (fun x => { x with status := Status.starting }))
        = s.activeSessions.map (fun kv =>
            if (kv.1 == sid) = true
            then (kv.1, { kv.2 with status := Status.starting }) else kv) := rfl
    rw [hmapeq, List.pairwise_map]
    refine h.portsOk.imp ?_
    intro a b hab h1 h2
    by_cases ha : a.1 = sid
    · simp only [ha, beq_self_eq_true, if_true] at h1
      simp at h1
    · by_cases hb : b.1 = sid
      · simp only [hb, beq_self_eq_true, if_true] at h2
        simp at h2
      · simp only [beq_iff_eq, if_neg ha, if_neg hb] at h1 h2 ⊢
        exact hab h1 h2

theorem pairwise_mapUpdate_run {m : Registry} {sid : String} {p : Nat}
    (g : Session → Session)
    (hgport : ∀ x, (g x).port = x.port)
    (hnd : (keysOf m).Nodup)
    (hR : List.Pairwise runningPortR m)
    (hcont : ∀ kv ∈ m, kv.2.status = Status.running → kv.2.containerId.isSome = true)
    (hsidport : ∀ kv ∈ m, kv.1 = sid → kv.2.port = p)
    (hfree : ∀ kv ∈ m, kv.2.containerId.isSome = true → kv.2.port ≠ p) :
    List.Pairwise runningPortR (mapUpdate m sid g) := by
  induction m with
  | nil => exact List.Pairwise.nil
  | cons hd tl ih =>
    simp only [keysOf, List.map_cons, List.nodup_cons] at hnd
    have htlnd : (keysOf tl).Nodup := hnd.2
    have hRtl := hR.tail
    have hRhd : ∀ b ∈ tl, runningPortR hd b := fun b hb => List.rel_of_pairwise_cons hR hb
    have hup : mapUpdate (hd :: tl) sid g
        = (if (hd.1 == sid) = true then (hd.1, g hd.2) else hd) :: mapUpdate tl sid g := rfl
    rw [hup]
    refine List.Pairwise.cons ?_ ?_
    · intro b' hb'
      rcases mem_mapUpdate_elim hb' with ⟨b, hbmem, hbcase⟩
      by_cases hhd : hd.1 = sid
      · simp only [hhd, beq_self_eq_true, if_true]
        intro _ hbrun
        rw [hgport]
        have hhdp : hd.2.port = p := hsidport hd (List.mem_cons_self hd tl) hhd
        rcases hbcase with hsame | ⟨hbk, hbupd⟩
        · rw [hsame] at hbrun
          have hbc := hcont b (List.mem_cons_of_mem hd hbmem) (hsame ▸ hbrun)
          have hbp := hfree b (List.mem_cons_of_mem hd hbmem) hbc
          rw [hhdp, hsame]
          exact fun he => hbp he.symm
        · exfalso
          apply hnd.1
          have hbm : b.1 ∈ List.map (fun kv => kv.1) tl :=
            List.mem_map_of_mem (fun kv => kv.1) hbmem
          rw [hbk, ← hhd] at hbm
          exact hbm
      · simp only [beq_iff_eq, if_neg hhd]
        intro hhdrun hbrun
        have hhdc := hcont hd (List.mem_cons_self hd tl) hhdrun
        have hhdp := hfree hd (List.mem_cons_self hd tl) hhdc
        rcases hbcase with hsame | ⟨hbk, hbupd⟩
        · rw [hsame]
          rw [hsame] at hbrun
          exact hRhd b hbmem hhdrun hbrun
        · rw [hbupd]
          simp only [hgport]
          have hbp : b.2.port = p := hsidport b (List.mem_cons_of_mem hd hbmem) hbk
          rw [hbp]
          exact hhdp
    · exact ih htlnd hRtl
        (fun kv hkv => hcont kv (List.mem_cons_of_mem hd hkv))
        (fun kv hkv => hsidport kv (List.mem_cons_of_mem hd hkv))
        (fun kv hkv => hfree kv (List.mem_cons_of_mem hd hkv))

theorem regInv_startOk {s : ServerState} {sid : String} {sess : Session} {cid : String}
    (h : RegInv s.activeSessions)
    (hget : mapGet s.activeSessions sid = some sess)
    (_hst : sess.status = Status.starting)
    (hbind : osBoundB s.activeSessions sess.port = false) :
    RegInv (startOkFn s sid cid).activeSessions := by
  have hreg : (startOkFn s sid cid).activeSessions
      = mapUpdate s.activeSessions sid
          (fun x => { x with containerId := some cid, status := Status.running }) := rfl
  have hfree : ∀ kv ∈ s.activeSessions,
      kv.2.containerId.isSome = true → kv.2.port ≠ sess.port := by
    intro kv hkv hc he
    have := osBound_of_mem hkv hc
    rw [he, hbind] at this
    exact Bool.false_ne_true this
  have hsidport : ∀ kv ∈ s.activeSessions, kv.1 = sid → kv.2.port = sess.port := by
    intro kv hkv hk
    have hh := mapGet_of_mem_nodup h.keysNodup hkv
    rw [hk, hget] at hh
    injection hh with hv
    rw [← hv]
  rw [hreg]
  constructor
  · rw [keysOf_mapUpdate]; exact h.keysNodup
  · intro kv hkv
    rcases mem_mapUpdate_elim hkv with ⟨kv0, hkv0, hcase⟩
    rcases hcase with hsame | ⟨hk, hupd⟩
    · rw [hsame]; exact h.idMatch kv0 hkv0
    · rw [hupd]; exact h.idMatch kv0 hkv0
  · intro kv hkv
    rcases mem_mapUpdate_elim hkv with ⟨kv0, hkv0, hcase⟩
    rcases hcase with hsame | ⟨hk, hupd⟩
    · rw [hsame]; exact h.urlNonempty kv0 hkv0
    · rw [hupd]; exact h.urlNonempty kv0 hkv0
  · intro kv hkv
    rcases mem_mapUpdate_elim hkv with ⟨kv0, hkv0, hcase⟩
    rcases hcase with hsame | ⟨hk, hupd⟩
    · rw [hsame]; exact h.contRun kv0 hkv0
    · rw [hupd]
      simp
  · exact pairwise_mapUpdate_run _ (fun x => rfl) h.keysNodup h.portsOk
      (fun kv hkv => (h.contRun kv hkv).mp) hsidport hfree

theorem handleDelete_found {s : ServerState} {sid : String} {sess : Session}
    (stopFails rmFails : Bool)
    (h : mapGet s.activeSessions sid = some sess) :
    (handleDelete s sid stopFails rmFails).1.activeSessions
        = mapDelete s.activeSessions sid ∧
    (handleDelete s sid stopFails rmFails).2 = Event.deleteSuccess sid ∧
    (handleDelete s sid stopFails rmFails).1.effects
        = s.effects ++ (match sess.containerId with
            | some cid => [ExtOp.dockerStop cid]
            | none => []) ++ [ExtOp.rmdirRec sess.sessionDir] := by
  unfold handleDelete
  rw [h]
  cases hc : sess.containerId with
  | none => simp [hc]
  | some cid => simp [hc]

theorem handleDelete_notFound {s : ServerState} {sid : String}
    (stopFails rmFails : Bool)
    (h : mapGet s.activeSessions sid = none) :
    handleDelete s sid stopFails rmFails = (s, Event.deleteNotFound sid) := by
  unfold handleDelete
  rw [h]

theorem regInv_handleDelete {s : ServerState} (sid : String) (stopFails rmFails : Bool)
    (h : RegInv s.activeSessions) :
    RegInv (handleDelete s sid stopFails rmFails).1.activeSessions := by
  cases hget : mapGet s.activeSessions sid with
  | none => rw [handleDelete_notFound stopFails rmFails hget]; exact h
  | some sess =>
    rw [(handleDelete_found stopFails rmFails hget).1]
    exact regInv_sublist (mapDelete_sublist _ _) h

/-- Every reachable server state satisfies the registry invariant. -/
theorem reachable_regInv {s : ServerState} (h : Reachable s) : RegInv s.activeSessions := by
  induction h with
  | init =>
    constructor <;> simp [initialState, keysOf]
  | next _ hstep ih =>
    cases hstep with
    | createReject => exact ih
    | createBegin repoUrl sid port hurl hfresh hfree =>
      exact regInv_beginCreate ih hurl hfresh
    | cloneOk sid sess hget hst => exact regInv_cloneOk ih hget hst
    | cloneFail sid sess rmFails hget hst =>
      exact regInv_errorCleanup _ _ ih
    | startOk sid sess cid hget hst hbind => exact regInv_startOk ih hget hst hbind
    | startFail sid sess rmFails hget hst =>
      exact regInv_errorCleanup _ _ ih
    | deleteSess sid stopFails rmFails sess hget =>
      exact regInv_handleDelete sid stopFails rmFails ih
    | deleteMiss sid stopFails rmFails hget => exact ih
    | probeTick sid env => exact ih

theorem attemptCount_checkFrom (resp : Nat → Option Nat) :
    ∀ (remaining attempts : Nat),
      attemptCount (checkFrom resp attempts remaining) ≤ remaining + 1 := by
  intro remaining
  induction remaining with
  | zero =>
    intro attempts
    by_cases hr : resp attempts = some 200 <;>
      simp [checkFrom, hr, attemptCount, List.filter]
  | succ r ih =>
    intro attempts
    by_cases hr : resp attempts = some 200
    · simp [checkFrom, hr, attemptCount, List.filter]
    · have hrec := ih (attempts + 1)
      simp only [attemptCount] at hrec ⊢
      simp only [checkFrom, if_neg hr]
      simp [List.filter]
      omega

theorem checkFrom_wait (resp : Nat → Option Nat) :
    ∀ (remaining attempts ms : Nat),
      ProbeEvent.wait ms ∈ checkFrom resp attempts remaining → ms = probeDelayMs := by
  intro remaining
  induction remaining with
  | zero =>
    intro a ms h
    by_cases hr : resp a = some 200 <;> simp [checkFrom, hr] at h
  | succ r ih =>
    intro a ms h
    by_cases hr : resp a = some 200
    · simp [checkFrom, hr] at h
    · simp only [checkFrom, if_neg hr] at h
      simp only [List.mem_cons] at h
      rcases h with h | h | h
      · exact absurd h (by simp)
      · injection h
      · exact ih _ _ h

theorem checkFrom_success (resp : Nat → Option Nat) :
    ∀ (remaining attempts k : Nat), attempts ≤ k → k ≤ attempts + remaining →
      resp k = some 200 → (∀ j, attempts ≤ j → j < k → resp j ≠ some 200) →
      ProbeEvent.logSuccess ∈ checkFrom resp attempts remaining ∧
      ProbeEvent.logGiveUp ∉ checkFrom resp attempts remaining ∧
      attemptCount (checkFrom resp attempts remaining) = k - attempts + 1 := by
  intro remaining
  induction remaining with
  | zero =>
    intro attempts k h1 h2 h200 hmin
    have hk : k = attempts := by omega
    subst hk
    simp [checkFrom, h200, attemptCount, List.filter]
  | succ r ih =>
    intro attempts k h1 h2 h200 hmin
    by_cases heq : k = attempts
    · subst heq
      simp [checkFrom, h200, attemptCount, List.filter]
    · have hlt : attempts < k := by omega
      have hne : resp attempts ≠ some 200 := hmin attempts (le_refl _) hlt
      have ihres := ih (attempts + 1) k (by omega) (by omega) h200
        (fun j hj1 hj2 => hmin j (by omega) hj2)
      simp only [checkFrom, if_neg hne]
      refine ⟨by simp [ihres.1], ?_, ?_⟩
      · intro hmem
        simp only [List.mem_cons] at hmem
        rcases hmem with h | h | h
        · exact absurd h (by simp)
        · exact absurd h (by simp)
        · exact ihres.2.1 h
      · have hcnt := ihres.2.2
        simp only [attemptCount] at hcnt ⊢
        simp [List.filter]
        omega

theorem checkFrom_giveUp (resp : Nat → Option Nat) :
    ∀ (remaining attempts : Nat),
      (∀ j, attempts ≤ j → j ≤ attempts + remaining → resp j ≠ some 200) →
      ProbeEvent.logGiveUp ∈ checkFrom resp attempts remaining ∧
      ProbeEvent.logSuccess ∉ checkFrom resp attempts remaining ∧
      attemptCount (checkFrom resp attempts remaining) = remaining + 1 := by
  intro remaining
  induction remaining with
  | zero =>
    intro attempts hno
    have hne : resp attempts ≠ some 200 := hno attempts (le_refl _) (by omega)
    simp [checkFrom, hne, attemptCount, List.filter]
  | succ r ih =>
    intro attempts hno
    have hne : resp attempts ≠ some 200 := hno attempts (le_refl _) (by omega)
    have ihres := ih (attempts + 1) (fun j hj1 hj2 => hno j (by omega) (by omega))
    simp only [checkFrom, if_neg hne]
    refine ⟨by simp [ihres.1], ?_, ?_⟩
    · intro hmem
      simp only [List.mem_cons] at hmem
      rcases hmem with h | h | h
      · exact absurd h (by simp)
      · exact absurd h (by simp)
      · exact ihres.2.1 h
    · have hcnt := ihres.2.2
      simp only [attemptCount] at hcnt ⊢
      simp [List.filter]
      omega

theorem errorCleanup_found {s : ServerState} {u : String} {sid : String} (rm : Bool)
    (hu : u ≠ "")
    (hfind : List.find? (cleanupMatch s.activeSessions u) (keysOf s.activeSessions)
      = some sid) :
    (errorCleanupFn s u rm).activeSessions = mapDelete s.activeSessions sid ∧
    ExtOp.rmdirRec (sessionDirOf sid) ∈ (errorCleanupFn s u rm).effects := by
  unfold errorCleanupFn
  rw [if_neg hu, hfind]
  exact ⟨rfl, by simp⟩

/-- Session record of request A right after insertion: still `cloning`,
port 8080. -/
def exSessA : Session :=
  { sessionId := "A", repoUrl := "r", port := 8080, status := Status.cloning,
    containerId := none, sessionDir := sessionDirOf "A" }

/-- Session record of request B right after insertion. -/
def exSessBCloning : Session :=
  { sessionId := "B", repoUrl := "r", port := 8080, status := Status.cloning,
    containerId := none, sessionDir := sessionDirOf "B" }

/-- Session record of request B after its clone finished. -/
def exSessBStarting : Session :=
  { exSessBCloning with status := Status.starting }

/-- Trace: request A (repo `"r"`) begins and is inserted with port 8080
(8080 is OS-free — no container is running). -/
def exC1 : ServerState := beginCreateFn initialState "r" "A" 8080

/-- Trace: request B (same repo `"r"`) begins while A is still cloning;
A's probe socket is closed and A's container not started, so 8080 is
still OS-free and B is also handed port 8080. -/
def exC2 : ServerState := beginCreateFn exC1 "r" "B" 8080

/-- Trace: B's clone finishes first; B moves to `starting`. -/
def exC3 : ServerState := cloneOkFn exC2 "B"

/-- Trace branch: B's container starts; B becomes `running` and its
create request returns success with port 8080 while A still holds 8080. -/
def exC4s : ServerState := startOkFn exC3 "B" "cidB"

/-- Trace branch: B's container start throws; the catch block searches by
`repoUrl` and deletes the FIRST non-running match — session A — leaving
the failing session B in the registry. -/
def exC4f : ServerState := startFailFn exC3 "B" "r" false

theorem step_exC1 : Step initialState (Event.createStarted "A" "r" 8080) exC1 :=
  Step.createBegin initialState "r" "A" 8080 (by decide) (by decide) (by decide)

theorem step_exC2 : Step exC1 (Event.createStarted "B" "r" 8080) exC2 :=
  Step.createBegin exC1 "r" "B" 8080 (by decide) (by decide) (by decide)

theorem step_exC3 : Step exC2 (Event.probed "B") exC3 :=
  Step.cloneOk exC2 "B" exSessBCloning (by decide) (by decide)

theorem step_exC4s : Step exC3 (Event.createSuccess "B" "r" 8080) exC4s :=
  Step.startOk exC3 "B" exSessBStarting "cidB" (by decide) (by decide) (by decide)

theorem step_exC4f : Step exC3 (Event.createError "r") exC4f :=
  Step.startFail exC3 "B" exSessBStarting false (by decide) (by decide)

theorem reach_exC1 : Reachable exC1 := Reachable.next Reachable.init step_exC1

theorem reach_exC2 : Reachable exC2 := Reachable.next reach_exC1 step_exC2

theorem reach_exC3 : Reachable exC3 := Reachable.next reach_exC2 step_exC3

theorem reach_exC4f : Reachable exC4f := Reachable.next reach_exC3 step_exC4f

/-- Sequential two-session trace used as a witness: S1 is created fully
(running on 8080), then S2 is created and handed the OS-free port 8081
(a transition of the over-approximated allocator; under the faithful
allocator, whose fallback is dead code, this second allocation would end
in an unhandled error — see the C4 analysis). -/
def exD1 : ServerState := beginCreateFn initialState "u" "S1" 8080

def exD2 : ServerState := cloneOkFn exD1 "S1"

def exD3 : ServerState := startOkFn exD2 "S1" "cid1"

def exD4 : ServerState := beginCreateFn exD3 "u" "S2" 8081

def exD5 : ServerState := cloneOkFn exD4 "S2"

def exD6 : ServerState := startOkFn exD5 "S2" "cid2"

/-- Session record of S1 while cloning. -/
def exSessS1c : Session :=
  { sessionId := "S1", repoUrl := "u", port := 8080, status := Status.cloning,
    containerId := none, sessionDir := sessionDirOf "S1" }

/-- Session record of S2 after its clone finished. -/
def exSessS2s : Session :=
  { sessionId := "S2", repoUrl := "u", port := 8081, status := Status.starting,
    containerId := none, sessionDir := sessionDirOf "S2" }

theorem step_exD1 : Step initialState (Event.createStarted "S1" "u" 8080) exD1 :=
  Step.createBegin initialState "u" "S1" 8080 (by decide) (by decide) (by decide)

theorem step_exD2 : Step exD1 (Event.probed "S1") exD2 :=
  Step.cloneOk exD1 "S1" exSessS1c (by decide) (by decide)

theorem step_exD3 : Step exD2 (Event.createSuccess "S1" "u" 8080) exD3 :=
  Step.startOk exD2 "S1" { exSessS1c with status := Status.starting } "cid1"
    (by decide) (by decide) (by decide)

theorem step_exD4 : Step exD3 (Event.createStarted "S2" "u" 8081) exD4 :=
  Step.createBegin exD3 "u" "S2" 8081 (by decide) (by decide) (by decide)

theorem step_exD5 : Step exD4 (Event.probed "S2") exD5 :=
  Step.cloneOk exD4 "S2" { exSessS2s with status := Status.cloning }
    (by decide) (by decide)

theorem step_exD6 : Step exD5 (Event.createSuccess "S2" "u" 8081) exD6 :=
  Step.startOk exD5 "S2" exSessS2s "cid2" (by decide) (by decide) (by decide)

theorem reach_exD1 : Reachable exD1 := Reachable.next Reachable.init step_exD1

theorem reach_exD2 : Reachable exD2 := Reachable.next reach_exD1 step_exD2

theorem reach_exD3 : Reachable exD3 := Reachable.next reach_exD2 step_exD3

theorem reach_exD4 : Reachable exD4 := Reachable.next reach_exD3 step_exD4

theorem reach_exD5 : Reachable exD5 := Reachable.next reach_exD4 step_exD5

theorem reach_exD6 : Reachable exD6 := Reachable.next reach_exD5 step_exD6

theorem mapGet_mapUpdate (m : Registry) (k : String) (f : Session → Session) :
    mapGet (mapUpdate m k f) k = (mapGet m k).map f := by
  induction m with
  | nil => rfl
  | cons hd tl ih =>
    by_cases hk : hd.1 = k
    · simp [mapGet, mapUpdate, List.find?_cons, hk]
    · have hne : (hd.1 == k) = false := beq_eq_false_iff_ne.mpr hk
      unfold mapGet mapUpdate at ih ⊢
      simp only [List.map_cons, hne, Bool.false_eq_true, if_false, List.find?_cons]
      exact ih

/-- Request `repoUrl` carried by the create-family responses. -/
def eventRepoUrl : Event → Option String
  | Event.validationError u => some u
  | Event.createStarted _ u _ => some u
  | Event.createSuccess _ u _ => some u
  | Event.createError u => some u
  | Event.deleteSuccess _ => none
  | Event.deleteNotFound _ => none
  | Event.probed _ => none

/-- C1 (counterexample): port uniqueness fails as stated.  In the
reachable state `exC3`, request B's container start succeeds and its
creation returns success with port 8080, while session A — live in the
registry in state `cloning` — also holds port 8080: two live sessions
hold the same port, and the successfully returned port is not distinct
from the ports of all registered sessions at the instant of return. -/
theorem c1_counterexample :
    Reachable exC3 ∧
    Step exC3 (Event.createSuccess "B" "r" 8080) exC4s ∧
    mapGet exC3.activeSessions "A" = some exSessA ∧
    mapGet exC4s.activeSessions "A" = some exSessA ∧
    exSessA.status = Status.cloning ∧
    exSessA.port = 8080 ∧
    ("A" : String) ≠ "B" :=
  ⟨reach_exC3, step_exC4s, by decide, by decide, rfl, rfl, by decide⟩

/-- C1 (amended): port uniqueness holds only for sessions whose container
has started.  In every reachable registry state no two RUNNING sessions
hold the same port, and a successful creation's returned port is distinct
from the port of every session already running at the instant the
container was started; sessions still cloning or starting may share the
new session's port, because `findAvailablePort` consults only OS socket
bindings and such sessions bind nothing. -/
theorem c1_amended :
    (∀ s : ServerState, Reachable s →
      List.Pairwise runningPortR s.activeSessions) ∧
    (∀ (s s' : ServerState) (sid u : String) (p : Nat),
      Reachable s → Step s (Event.createSuccess sid u p) s' →
      ∀ kv ∈ s.activeSessions, kv.2.status = Status.running → kv.2.port ≠ p) := by
  constructor
  · intro s hs
    exact (reachable_regInv hs).portsOk
  · intro s s' sid u p hs hstep kv hkv hrun
    have hinv := reachable_regInv hs
    cases hstep with
    | startOk sid2 sess cid hget hst hbind =>
      have hc : kv.2.containerId.isSome = true := (hinv.contRun kv hkv).mp hrun
      intro he
      have hb := osBound_of_mem hkv hc
      rw [he, hbind] at hb
      exact Bool.false_ne_true hb

/-- Witness for the amended C1, at the concrete sequential trace where S1
runs on 8080 and S2 is then created: the pairwise invariant holds in the
final state, and S1's port 8080 differs from the port 8081 returned by
S2's successful creation. -/
theorem c1_amended_witness :
    List.Pairwise runningPortR exD6.activeSessions ∧ (8080 : Nat) ≠ 8081 := by
  constructor
  · exact c1_amended.1 exD6 reach_exD6
  · exact c1_amended.2 exD5 exD6 "S2" "u" 8081 reach_exD5 step_exD6
      ("S1", { exSessS1c with status := Status.running, containerId := some "cid1" })
      (by decide) rfl

/-- C2 (counterexample): creation-failure rollback can remove the wrong
session.  In the reachable state `exC3` (A still cloning repo `"r"`,
B starting the same repo), B's container start throws; the catch block
looks the victim up BY `repoUrl` among non-running sessions and deletes
the first match — session A — so the failing session B's id stays in the
registry (and would keep appearing in `list()`), while A vanishes. -/
theorem c2_counterexample :
    Reachable exC3 ∧
    mapGet exC3.activeSessions "B" = some exSessBStarting ∧
    Step exC3 (Event.createError "r") exC4f ∧
    Reachable exC4f ∧
    mapGet exC4f.activeSessions "B" = some exSessBStarting ∧
    mapGet exC4f.activeSessions "A" = none :=
  ⟨reach_exC3, by decide, step_exC4f, reach_exC4f, by decide, by decide⟩

/-- C2 (amended): when the failing session is the first (insertion-order)
non-running session whose `repoUrl` matches the request — in particular
whenever no other live session shares its `repoUrl`, as in sequential
operation — a failure of EITHER fallible creation phase behaves as the
claim says: a source-fetch (clone) failure, hitting the session while it
is `cloning`, and a container create/start failure, hitting it while it
is `starting`, each report a creation error, remove exactly the failing
session's registry entry, and attempt the recursive removal of its
workspace directory regardless of whether that removal itself fails.  In
general the catch block removes the first non-running `repoUrl` match,
which need not be the failing session. -/
theorem c2_amended (s : ServerState) (sid : String) (sess : Session) (rmFails : Bool)
    (hget : mapGet s.activeSessions sid = some sess)
    (hu : sess.repoUrl ≠ "")
    (hfirst : List.find? (cleanupMatch s.activeSessions sess.repoUrl)
      (keysOf s.activeSessions) = some sid) :
    (sess.status = Status.cloning →
      Step s (Event.createError sess.repoUrl) (cloneFailFn s sid sess.repoUrl rmFails) ∧
      mapGet (cloneFailFn s sid sess.repoUrl rmFails).activeSessions sid = none ∧
      ExtOp.rmdirRec (sessionDirOf sid)
        ∈ (cloneFailFn s sid sess.repoUrl rmFails).effects) ∧
    (sess.status = Status.starting →
      Step s (Event.createError sess.repoUrl) (startFailFn s sid sess.repoUrl rmFails) ∧
      mapGet (startFailFn s sid sess.repoUrl rmFails).activeSessions sid = none ∧
      ExtOp.rmdirRec (sessionDirOf sid)
        ∈ (startFailFn s sid sess.repoUrl rmFails).effects) := by
  constructor
  · intro hst
    have hres := errorCleanup_found
      (s := { s with
                effects := s.effects ++ [ExtOp.gitClone sess.repoUrl (sessionDirOf sid)] })
      rmFails hu hfirst
    refine ⟨Step.cloneFail s sid sess rmFails hget hst, ?_, hres.2⟩
    show mapGet (errorCleanupFn
      { s with effects := s.effects ++ [ExtOp.gitClone sess.repoUrl (sessionDirOf sid)] }
      sess.repoUrl rmFails).activeSessions sid = none
    rw [hres.1]
    exact mapGet_mapDelete_self _ _
  · intro hst
    have hres := errorCleanup_found
      (s := { s with effects := s.effects ++ [ExtOp.dockerCreateStart sid] })
      rmFails hu hfirst
    refine ⟨Step.startFail s sid sess rmFails hget hst, ?_, hres.2⟩
    show mapGet (errorCleanupFn
      { s with effects := s.effects ++ [ExtOp.dockerCreateStart sid] }
      sess.repoUrl rmFails).activeSessions sid = none
    rw [hres.1]
    exact mapGet_mapDelete_self _ _

/-- Witness for the amended C2 at two concrete states: a clone failure of
the lone cloning session A in `exC1` removes A, and a container-start
failure of S2 in `exD5` (S1 running the same repo `"u"`, S2 the first
non-running match) removes S2. -/
theorem c2_amended_witness :
    mapGet (cloneFailFn exC1 "A" "r" false).activeSessions "A" = none ∧
    mapGet (startFailFn exD5 "S2" "u" true).activeSessions "S2" = none :=
  ⟨((c2_amended exC1 "A" exSessA false (by decide) (by decide) (by decide)).1 rfl).2.1,
   ((c2_amended exD5 "S2" exSessS2s true (by decide) (by decide) (by decide)).2 rfl).2.1⟩

/-- C3 (confirmed): deleting a known session id always succeeds and
removes the entry.  For any registry containing `sid` (with the invariant
that entries carry their own key as `sessionId`), the DELETE handler
answers success, the id is gone from the registry and from every
subsequent `list()` projection, and the external actions performed are
exactly: container stop (when a `containerId` exists) followed by the
workspace removal — for EVERY combination of stop/removal failures, since
both are caught and only logged. -/
theorem c3_delete_known (s : ServerState) (sid : String) (sess : Session)
    (stopFails rmFails : Bool)
    (hids : ∀ kv ∈ s.activeSessions, kv.2.sessionId = kv.1)
    (hget : mapGet s.activeSessions sid = some sess) :
    (handleDelete s sid stopFails rmFails).2 = Event.deleteSuccess sid ∧
    mapGet (handleDelete s sid stopFails rmFails).1.activeSessions sid = none ∧
    (∀ x ∈ listSessions (handleDelete s sid stopFails rmFails).1, x.sessionId ≠ sid) ∧
    (handleDelete s sid stopFails rmFails).1.effects
      = s.effects ++ (match sess.containerId with
          | some cid => [ExtOp.dockerStop cid]
          | none => []) ++ [ExtOp.rmdirRec sess.sessionDir] := by
  obtain ⟨hreg, hev, heff⟩ := handleDelete_found stopFails rmFails hget
  refine ⟨hev, ?_, ?_, heff⟩
  · rw [hreg]
    exact mapGet_mapDelete_self _ _
  · intro x hx
    unfold listSessions at hx
    rw [hreg] at hx
    rcases List.mem_map.mp hx with ⟨kv, hkv, hxeq⟩
    have hmem := (mem_mapDelete.mp hkv).1
    have hne := (mem_mapDelete.mp hkv).2
    intro he
    apply hne
    have hid := hids kv hmem
    rw [← hxeq] at he
    rw [← hid]
    exact he

/-- Witness for C3 at the concrete state `exD3` where session S1 is
running with a container: deleting S1 with BOTH the container stop and
the directory removal failing still answers success and removes S1. -/
theorem c3_delete_known_witness :
    (handleDelete exD3 "S1" true true).2 = Event.deleteSuccess "S1" ∧
    mapGet (handleDelete exD3 "S1" true true).1.activeSessions "S1" = none := by
  have h := c3_delete_known exD3 "S1"
    { exSessS1c with status := Status.running, containerId := some "cid1" }
    true true (by decide) (by decide)
  exact ⟨h.1, h.2.1⟩

/-- Environment in which every bind succeeds; the allocator resolves the
preferred port. -/
def freeBindEnv : NetBindEnv :=
  { bindResult := fun _ => none, ephemeralPort := 9000 }

/-- Environment in which the preferred port 8080 is already in use while
the OS still has the ephemeral port 9001 available — the failing input
for the allocator contract. -/
def busyBindEnv : NetBindEnv :=
  { bindResult := fun p => if p = 8080 then some "EADDRINUSE" else none,
    ephemeralPort := 9001 }

/-- C4 (code bug): the claimed fallback/error contract is the evident
intent of `findAvailablePort` — its body literally contains
`if (err) { server.listen(0, ...) }` — but the code wires the callback to
`server.listen(port, cb)`, where it is a `listening`-event listener that
never receives an error argument, so the fallback branch is dead code.
Evaluating the faithful embedding at the failing input (preferred port
8080 busy, ephemeral port 9001 bindable): the outcome is an unhandled
`error` event — the promise resolves no port at all, in particular not
the available ephemeral port, and it also never rejects with a clean
error value; only the bind-succeeds half of the contract (resolve the
preferred port) is implemented. -/
theorem c4_port_allocator :
    findAvailablePort busyBindEnv 8080 = ListenOutcome.unhandledError "EADDRINUSE" ∧
    (∀ p : Nat, findAvailablePort busyBindEnv 8080 ≠ ListenOutcome.resolved p) ∧
    busyBindEnv.bindResult busyBindEnv.ephemeralPort = none ∧
    (∀ (env : NetBindEnv) (startPort : Nat),
      env.bindResult startPort = none →
      findAvailablePort env startPort = ListenOutcome.resolved startPort) := by
  refine ⟨rfl, ?_, rfl, ?_⟩
  · intro p h
    exact absurd h (by simp [findAvailablePort, busyBindEnv])
  · intro env startPort h
    unfold findAvailablePort
    rw [h]

/-- Witness for C4's intact half at a concrete environment where the
preferred bind succeeds: the allocator resolves the preferred port. -/
theorem c4_port_allocator_witness :
    findAvailablePort freeBindEnv 8080 = ListenOutcome.resolved 8080 :=
  c4_port_allocator.2.2.2 freeBindEnv 8080 rfl

/-- C5 (confirmed): empty-input validation is atomic.  From every
reachable state, a create request whose `repoUrl` is empty (the `!repoUrl`
guard also covers a missing field) can answer with the validation error
leaving the state — registry, logs, effect trace — untouched, and that is
its ONLY possible behaviour: every step whose emitted create-family
response carries the empty `repoUrl` is the validation rejection with an
unchanged state, so no port probe, registry insertion or any other
resource acquisition happens first. -/
theorem c5_empty_validation (s : ServerState) (hs : Reachable s) :
    Step s (Event.validationError "") s ∧
    (∀ (e : Event) (s' : ServerState), Step s e s' → eventRepoUrl e = some "" →
      e = Event.validationError "" ∧ s' = s) := by
  refine ⟨Step.createReject s, ?_⟩
  intro e s' hstep hurl
  have hinv := reachable_regInv hs
  cases hstep with
  | createReject => exact ⟨rfl, rfl⟩
  | createBegin repoUrl sid port hu hfresh hfree =>
    exfalso
    apply hu
    simp only [eventRepoUrl, Option.some.injEq] at hurl
    exact hurl
  | cloneOk sid sess hget hst => simp [eventRepoUrl] at hurl
  | cloneFail sid sess rmFails hget hst =>
    exfalso
    apply hinv.urlNonempty (sid, sess) (mapGet_some_mem hget)
    simp only [eventRepoUrl, Option.some.injEq] at hurl
    exact hurl
  | startOk sid sess cid hget hst hbind =>
    exfalso
    apply hinv.urlNonempty (sid, sess) (mapGet_some_mem hget)
    simp only [eventRepoUrl, Option.some.injEq] at hurl
    exact hurl
  | startFail sid sess rmFails hget hst =>
    exfalso
    apply hinv.urlNonempty (sid, sess) (mapGet_some_mem hget)
    simp only [eventRepoUrl, Option.some.injEq] at hurl
    exact hurl
  | deleteSess sid stopFails rmFails sess hget => simp [eventRepoUrl] at hurl
  | deleteMiss sid stopFails rmFails hget => simp [eventRepoUrl] at hurl
  | probeTick sid env => simp [eventRepoUrl] at hurl

/-- Witness for C5 at the initial state: the empty-`repoUrl` rejection
step exists and leaves the state unchanged. -/
theorem c5_empty_validation_witness :
    Step initialState (Event.validationError "") initialState :=
  (c5_empty_validation initialState Reachable.init).1

/-- C6 (confirmed): the optimistic `running` transition.  When the
container start returns without error, the very step that emits the
success response also sets the session's registry state to `running` and
stores the container id — no probe precondition appears anywhere in that
step — and a detached probe run, whatever `inspect` and the polled port
answer, changes neither the registry nor the external-effect trace (it
only appends log lines), so its outcome can never alter the returned or
registered state. -/
theorem c6_optimistic_running (s : ServerState) (sid : String) (sess : Session)
    (cid : String) (env : ProbeEnv)
    (hget : mapGet s.activeSessions sid = some sess)
    (hst : sess.status = Status.starting)
    (hbind : osBoundB s.activeSessions sess.port = false) :
    Step s (Event.createSuccess sid sess.repoUrl sess.port) (startOkFn s sid cid) ∧
    mapGet (startOkFn s sid cid).activeSessions sid
      = some { sess with status := Status.running, containerId := some cid } ∧
    (probeFn s sid env).activeSessions = s.activeSessions ∧
    (probeFn s sid env).effects = s.effects := by
  refine ⟨Step.startOk s sid sess cid hget hst hbind, ?_, rfl, rfl⟩
  have h := mapGet_mapUpdate s.activeSessions sid
    (fun x => { x with containerId := some cid, status := Status.running })
  show mapGet (mapUpdate s.activeSessions sid
    (fun x => { x with containerId := some cid, status := Status.running })) sid = _
  rw [h, hget]
  rfl

/-- Witness for C6 at the concrete state `exD5`: S2's start succeeds, the
success response for port 8081 is emitted in the same step that marks S2
running, and a concrete probe run leaves the registry untouched. -/
theorem c6_optimistic_running_witness :
    Step exD5 (Event.createSuccess "S2" "u" 8081) exD6 ∧
    mapGet exD6.activeSessions "S2"
      = some { exSessS2s with
                 status := Status.running,
                 containerId := some "cid2" } ∧
    (probeFn exD5 "S2" { inspectRunning := true, resp := fun _ => none }).activeSessions
      = exD5.activeSessions := by
  have h := c6_optimistic_running exD5 "S2" exSessS2s "cid2"
    { inspectRunning := true, resp := fun _ => none } (by decide) rfl (by decide)
  exact ⟨h.1, h.2.1, h.2.2.1⟩

/-- C7 (counterexample): the "two distinct ports" half of the claim
fails.  In the reachable state `exC2`, two create requests for the SAME
repo `"r"` have each inserted a fresh session — distinct ids A and B, no
deduplication — but both were allocated the SAME port 8080, because
request A was still cloning (binding nothing at OS level) when request
B's allocator probed port 8080. -/
theorem c7_counterexample :
    Reachable exC2 ∧
    mapGet exC2.activeSessions "A" = some exSessA ∧
    mapGet exC2.activeSessions "B" = some exSessBCloning ∧
    exSessA.repoUrl = exSessBCloning.repoUrl ∧
    ("A" : String) ≠ "B" ∧
    exSessA.port = exSessBCloning.port :=
  ⟨reach_exC2, by decide, by decide, rfl, by decide, rfl⟩

/-- C7 (amended): no deduplication by `sourceRef` holds — every create
request that passes validation appends a brand-new registry entry with a
freshly generated id different from every existing key, even when another
session with the same `repoUrl` is live — and the newly allocated port is
distinct from the port of every session whose container is already
running at allocation time (in particular, sequential creations get
distinct ports); but it need not be distinct from the ports of sessions
still in `cloning`/`starting`. -/
theorem c7_amended (s s' : ServerState) (sid u : String) (p : Nat)
    (hs : Reachable s) (hstep : Step s (Event.createStarted sid u p) s') :
    s'.activeSessions = s.activeSessions ++
      [(sid, { sessionId := sid, repoUrl := u, port := p,
               status := Status.cloning, containerId := none,
               sessionDir := sessionDirOf sid })] ∧
    (∀ kv ∈ s.activeSessions, kv.1 ≠ sid) ∧
    (∀ kv ∈ s.activeSessions, kv.2.status = Status.running → kv.2.port ≠ p) := by
  have hinv := reachable_regInv hs
  cases hstep with
  | createBegin repoUrl2 sid2 port2 hurl hfresh hfree =>
    refine ⟨?_, mapGet_eq_none.mp hfresh, ?_⟩
    · show (beginCreateFn s u sid p).activeSessions = _
      simp [beginCreateFn, mapSet_fresh hfresh]
    · intro kv hkv hrun
      have hc : kv.2.containerId.isSome = true := (hinv.contRun kv hkv).mp hrun
      intro he
      have hb := osBound_of_mem hkv hc
      rw [he, hfree] at hb
      exact Bool.false_ne_true hb

/-- Witness for the amended C7 at the step that begins S2's creation
while S1 (same repo `"u"`) is running: the registry is extended by
exactly the fresh S2 entry. -/
theorem c7_amended_witness :
    exD4.activeSessions = exD3.activeSessions ++
      [("S2", { sessionId := "S2", repoUrl := "u", port := 8081,
                status := Status.cloning, containerId := none,
                sessionDir := sessionDirOf "S2" })] :=
  (c7_amended exD3 exD4 "S2" "u" 8081 reach_exD3 step_exD4).1

/-- C8 (confirmed): the readiness probe's HTTP poll is bounded and
diagnostic only.  For any sequence of HTTP answers it performs at most
`maxAttempts = 10` attempts; every scheduled wait between attempts is
`probeDelayMs = 1000` milliseconds; when the first 200 answer arrives at
attempt `k < 10` the loop logs success and stops after exactly `k + 1`
attempts, never logging the give-up line; when no 200 arrives within the
budget it performs exactly 10 attempts and then only logs the give-up
line; and a probe run leaves the registry and the external-effect trace
of the server state unchanged — it affects logs only. -/
theorem c8_probe_bound (resp : Nat → Option Nat) (s : ServerState) (sid : String)
    (env : ProbeEnv) :
    attemptCount (checkFrom resp 0 (maxAttempts - 1)) ≤ maxAttempts ∧
    (∀ ms, ProbeEvent.wait ms ∈ checkFrom resp 0 (maxAttempts - 1) →
      ms = probeDelayMs) ∧
    (∀ k, k < maxAttempts → resp k = some 200 →
      (∀ j, j < k → resp j ≠ some 200) →
      ProbeEvent.logSuccess ∈ checkFrom resp 0 (maxAttempts - 1) ∧
      ProbeEvent.logGiveUp ∉ checkFrom resp 0 (maxAttempts - 1) ∧
      attemptCount (checkFrom resp 0 (maxAttempts - 1)) = k + 1) ∧
    ((∀ k, k < maxAttempts → resp k ≠ some 200) →
      ProbeEvent.logGiveUp ∈ checkFrom resp 0 (maxAttempts - 1) ∧
      attemptCount (checkFrom resp 0 (maxAttempts - 1)) = maxAttempts) ∧
    (probeFn s sid env).activeSessions = s.activeSessions ∧
    (probeFn s sid env).effects = s.effects := by
  refine ⟨?_, ?_, ?_, ?_, rfl, rfl⟩
  · have h := attemptCount_checkFrom resp (maxAttempts - 1) 0
    have hm : maxAttempts - 1 + 1 = maxAttempts := by
      simp [maxAttempts]
    rw [hm] at h
    exact h
  · intro ms h
    exact checkFrom_wait resp _ _ _ h
  · intro k hk h200 hmin
    have hk2 : k ≤ 0 + (maxAttempts - 1) := by
      simp only [maxAttempts] at hk ⊢
      omega
    have h := checkFrom_success resp (maxAttempts - 1) 0 k (Nat.zero_le k) hk2 h200
      (fun j _ hj2 => hmin j hj2)
    refine ⟨h.1, h.2.1, ?_⟩
    have hc := h.2.2
    simpa using hc
  · intro hno
    have hbound : ∀ j, 0 ≤ j → j ≤ 0 + (maxAttempts - 1) → resp j ≠ some 200 := by
      intro j _ hj2
      apply hno
      simp only [maxAttempts] at hj2 ⊢
      omega
    have h := checkFrom_giveUp resp (maxAttempts - 1) 0 hbound
    refine ⟨h.1, ?_⟩
    have hc := h.2.2
    have hm : maxAttempts - 1 + 1 = maxAttempts := by
      simp [maxAttempts]
    rw [hm] at hc
    exact hc

/-- HTTP answers that return 200 on the third attempt. -/
def respHit : Nat → Option Nat := fun k => if k = 2 then some 200 else none

/-- HTTP answers that never return 200. -/
def respMiss : Nat → Option Nat := fun _ => some 503

/-- Witness for C8 at two concrete answer sequences: a 200 at attempt 2
stops the loop with success after 3 attempts, and an always-503 port
exhausts the budget at exactly `maxAttempts` attempts with the give-up
log line; a concrete probe run leaves the registry unchanged. -/
theorem c8_probe_bound_witness :
    ProbeEvent.logSuccess ∈ checkFrom respHit 0 (maxAttempts - 1) ∧
    attemptCount (checkFrom respHit 0 (maxAttempts - 1)) = 3 ∧
    ProbeEvent.logGiveUp ∈ checkFrom respMiss 0 (maxAttempts - 1) ∧
    attemptCount (checkFrom respMiss 0 (maxAttempts - 1)) = maxAttempts ∧
    (probeFn initialState "S1"
      { inspectRunning := true, resp := respMiss }).activeSessions
      = initialState.activeSessions := by
  have h1 := (c8_probe_bound respHit initialState "S1"
    { inspectRunning := true, resp := respHit }).2.2.1 2 (by decide) (by decide)
    (fun j hj => by
      have : j ≠ 2 := by omega
      simp [respHit, this])
  have h2 := (c8_probe_bound respMiss initialState "S1"
    { inspectRunning := true, resp := respMiss }).2.2.2.1
    (fun k _ => by simp [respMiss])
  have h3 := (c8_probe_bound respMiss initialState "S1"
    { inspectRunning := true, resp := respMiss }).2.2.2.2.1
  exact ⟨h1.1, h1.2.2, h2.1, h2.2, h3⟩

/-- C9 (confirmed): deleting an unknown id answers the not-found error
and is a complete no-op — the returned state is the input state itself,
so the registry, the logs and the external-effect trace (in particular:
no container stop and no filesystem removal) are all unchanged. -/
theorem c9_delete_unknown (s : ServerState) (sid : String)
    (stopFails rmFails : Bool)
    (h : mapGet s.activeSessions sid = none) :
    handleDelete s sid stopFails rmFails = (s, Event.deleteNotFound sid) :=
  handleDelete_notFound stopFails rmFails h

/-- Witness for C9: deleting the unknown id `"nope"` from the initial
state answers not-found and changes nothing. -/
theorem c9_delete_unknown_witness :
    handleDelete initialState "nope" true true
      = (initialState, Event.deleteNotFound "nope") :=
  c9_delete_unknown initialState "nope" true true (by decide)

/-- C10 (confirmed): the frame property of the failed-create cleanup.
For any registry with unique keys, the catch-block cleanup (a) only ever
keeps entries of the original registry, (b) removes only an entry whose
`repoUrl` equals the failing request's and whose status is not `running`,
(c) removes at most one entry, and (d) leaves every `running` session and
every session with a different `repoUrl` untouched; the victim is chosen
purely by `repoUrl` match — the cleanup never consults the failing
request's own session id. -/
theorem c10_cleanup_frame (s : ServerState) (u : String) (rm : Bool)
    (hnd : (keysOf s.activeSessions).Nodup) :
    (∀ kv ∈ (errorCleanupFn s u rm).activeSessions, kv ∈ s.activeSessions) ∧
    (∀ kv ∈ s.activeSessions, kv ∉ (errorCleanupFn s u rm).activeSessions →
      kv.2.repoUrl = u ∧ kv.2.status ≠ Status.running) ∧
    (∀ kv1 ∈ s.activeSessions, ∀ kv2 ∈ s.activeSessions,
      kv1 ∉ (errorCleanupFn s u rm).activeSessions →
      kv2 ∉ (errorCleanupFn s u rm).activeSessions → kv1 = kv2) ∧
    (∀ kv ∈ s.activeSessions, kv.2.status = Status.running ∨ kv.2.repoUrl ≠ u →
      kv ∈ (errorCleanupFn s u rm).activeSessions) := by
  by_cases hu : u = ""
  · have hres : (errorCleanupFn s u rm).activeSessions = s.activeSessions := by
      unfold errorCleanupFn
      rw [if_pos hu]
    rw [hres]
    exact ⟨fun kv h => h, fun kv h habs => absurd h habs,
           fun kv1 h1 kv2 h2 habs1 habs2 => absurd h1 habs1,
           fun kv h hor => h⟩
  · cases hfind : List.find? (cleanupMatch s.activeSessions u) (keysOf s.activeSessions) with
    | none =>
      have hres : (errorCleanupFn s u rm).activeSessions = s.activeSessions := by
        unfold errorCleanupFn
        rw [if_neg hu, hfind]
      rw [hres]
      exact ⟨fun kv h => h, fun kv h habs => absurd h habs,
             fun kv1 h1 kv2 h2 habs1 habs2 => absurd h1 habs1,
             fun kv h hor => h⟩
    | some sid =>
      have hres : (errorCleanupFn s u rm).activeSessions
          = mapDelete s.activeSessions sid := by
        unfold errorCleanupFn
        rw [if_neg hu, hfind]
      have hmatch := List.find?_some hfind
      rw [hres]
      have hkey : ∀ kv ∈ s.activeSessions, kv ∉ mapDelete s.activeSessions sid →
          kv.1 = sid := by
        intro kv hkv habs
        by_contra hne
        exact habs (mem_mapDelete.mpr ⟨hkv, hne⟩)
      have hsess : ∀ kv ∈ s.activeSessions, kv.1 = sid →
          kv.2.repoUrl = u ∧ kv.2.status ≠ Status.running := by
        intro kv hkv hk
        have hget := mapGet_of_mem_nodup hnd hkv
        rw [hk] at hget
        unfold cleanupMatch at hmatch
        rw [hget] at hmatch
        simp only [Bool.and_eq_true, beq_iff_eq, Bool.not_eq_true'] at hmatch
        refine ⟨hmatch.1, ?_⟩
        intro habs
        rw [habs] at hmatch
        simp at hmatch
      refine ⟨?_, ?_, ?_, ?_⟩
      · intro kv h
        exact (mem_mapDelete.mp h).1
      · intro kv hkv habs
        exact hsess kv hkv (hkey kv hkv habs)
      · intro kv1 h1 kv2 h2 habs1 habs2
        have hk1 := hkey kv1 h1 habs1
        have hk2 := hkey kv2 h2 habs2
        have hg1 := mapGet_of_mem_nodup hnd h1
        have hg2 := mapGet_of_mem_nodup hnd h2
        rw [hk1] at hg1
        rw [hk2] at hg2
        rw [hg1] at hg2
        injection hg2 with hv
        exact Prod.ext (hk1.trans hk2.symm) hv
      · intro kv hkv hor
        by_contra habs
        have h2 := hsess kv hkv (hkey kv hkv habs)
        rcases hor with hrun | hne
        · exact h2.2 hrun
        · exact hne h2.1

/-- Running session used in the C10 witness registry. -/
def exSessBRun : Session :=
  { sessionId := "B", repoUrl := "r", port := 8081, status := Status.running,
    containerId := some "cidB", sessionDir := sessionDirOf "B" }

/-- Registry with a cloning session A and a running session B, both for
repo `"r"`, at which the cleanup frame property is witnessed. -/
def exFrameState : ServerState :=
  { activeSessions := [("A", exSessA), ("B", exSessBRun)],
    logs := [], effects := [] }

/-- Witness for C10: cleaning up a failed create of repo `"r"` in
`exFrameState` leaves the running session B in place (it removes the
cloning session A instead). -/
theorem c10_cleanup_frame_witness :
    ("B", exSessBRun) ∈ (errorCleanupFn exFrameState "r" false).activeSessions :=
  (c10_cleanup_frame exFrameState "r" false (by decide)).2.2.2
    ("B", exSessBRun) (by decide) (Or.inl rfl)
